import Mathlib

/-!
Verification of tlevine/cutaudio (src/cutaudio.py).

Shallow embedding of the cut-list writer/parser, the mplayer position
tracker (`Player`), the interactive recorder loop (`generate_cutfile`),
and the sox cut-execution adapter (`process_cutfile`).  Python floats are
modelled as exact rationals: every claim only compares values that are
parsed from or printed to short decimal strings, where the rational model
agrees with IEEE double semantics (no arithmetic is performed on
positions).  Machine effects (subprocess spawning, file system) are
modelled as explicit inputs and event traces.
-/

namespace Cutaudio

/-- The record pattern from src/cutaudio.py line 9:
`CUTFILE_REGEX = r'^([0-9.]+) ([^/]+)$'`. -/
def CUTFILE_REGEX : String := "^([0-9.]+) ([^/]+)$"

/-- A character of the class `[0-9.]` used by both regexes of the source. -/
def isNumChar (c : Char) : Bool := c.isDigit || c == '.'

/-- Embeds `re.match(CUTFILE_REGEX, line)` (src/cutaudio.py line 111).
`re.match` anchors at the start of the string (it strips no whitespace).
Because a space is not in `[0-9.]`, the first group is exactly the maximal
leading run of `[0-9.]` characters and no backtracking into it is possible;
the next character must then be a literal space.  `[^/]` also matches
newline characters and Python's `$` always matches at the very end of the
string, so the greedy second group is the entire remainder of the line
(including any trailing newline) provided it is non-empty and free of `/`.
Returns the two captured groups. -/
def matchLine (s : String) : Option (List Char × List Char) :=
  let g1 := s.data.takeWhile isNumChar
  let r1 := s.data.dropWhile isNumChar
  if g1.isEmpty then none
  else
    match r1 with
    | ' ' :: g2 => if !g2.isEmpty && !g2.contains '/' then some (g1, g2) else none
    | _ => none

def digitVal (c : Char) : Nat := c.toNat - 48

def digitsToNat (l : List Char) : Nat := l.foldl (fun a c => 10 * a + digitVal c) 0

/-- Embeds Python `float(s)` restricted to the alphabet `[0-9.]` that the
regex groups can produce: the literal is valid iff it has at most one dot
and at least one digit (`float('.')`, `float('1.2.3')` raise ValueError).
The value is the exact decimal rational. -/
def pyFloat? (s : List Char) : Option Rat :=
  if s.all isNumChar ∧ s.count '.' ≤ 1 ∧ s.any Char.isDigit then
    let ip := s.takeWhile (fun c => !(c == '.'))
    let fp := (s.dropWhile (fun c => !(c == '.'))).drop 1
    some ((digitsToNat ip : Rat) + (digitsToNat fp : Rat) / ((10 : Rat) ^ fp.length))
  else none

/-- The record a fully valid line yields: the parsed time group and the
second group (which, by the `$`/`[^/]` semantics above, keeps its trailing
newline). -/
def recOf (l : String) : Rat × String :=
  match matchLine l with
  | some (g1, g2) => ((pyFloat? g1).getD 0, String.mk g2)
  | none => (0, "")

/-- A line both matches `CUTFILE_REGEX` and has a time group accepted by
`float`. -/
def lineOk (l : String) : Bool :=
  match matchLine l with
  | some (g1, _) => (pyFloat? g1).isSome
  | none => false

/-- Embeds `parse_cutfile` (src/cutaudio.py lines 109-115) applied to a
sequence of lines, run to exhaustion (`list(...)`).  Yields the records of
matching lines in order; the first line that fails `re.match` raises
`ValueError('Invalid line: %s' % line)`, and a matching line whose time
group is rejected by `float` raises the float conversion ValueError.  The
result pairs the records yielded before any error with the error message,
if one was raised. -/
def parse_cutfile : List String → List (Rat × String) × Option String
  | [] => ([], none)
  | l :: ls =>
    match matchLine l with
    | none => ([], some ("Invalid line: " ++ l))
    | some (g1, g2) =>
      match pyFloat? g1 with
      | none => ([], some ("could not convert string to float: \x27" ++ String.mk g1 ++ "\x27"))
      | some v =>
        let r := parse_cutfile ls
        ((v, String.mk g2) :: r.1, r.2)

def digitChar (n : Nat) : Char := Char.ofNat (48 + n)

/-- Decimal digits of `n`, most significant first; the first argument is
fuel bounding the recursion depth. -/
def natDigitsAux : Nat → Nat → List Char
  | 0, _ => []
  | fuel + 1, n => if n < 10 then [digitChar n] else natDigitsAux fuel (n / 10) ++ [digitChar (n % 10)]

def natStr (n : Nat) : String := String.mk (natDigitsAux (n + 1) n)

/-- Embeds Python `'%f' % x` for a non-negative value: the decimal
expansion with exactly six fractional digits.  Rounding of a seventh digit
is modelled as round-half-up; no claim depends on a half-way case. -/
def fmtF (q : Rat) : String :=
  let n := (Int.floor (q * 1000000 + 1 / 2)).toNat
  let frac := n % 1000000
  let fd := natDigitsAux (frac + 1) frac
  natStr (n / 1000000) ++ "." ++ String.mk (List.replicate (6 - fd.length) '0' ++ fd)

/-- The line the recorder writes for one accepted segment
(src/cutaudio.py line 106): `'  %f %s\n' % (player.position, filename)` —
note the two leading spaces. -/
def writeRecord (pos : Rat) (name : String) : String :=
  "  " ++ fmtF pos ++ " " ++ name ++ "\n"

/-- The mutable state of `Player` (src/cutaudio.py lines 118-125) together
with the parse loop's local line buffer: `position = 0.0`,
`playing = True`, `_stop = False`, `buffer = b''`. -/
structure PlayerState where
  position : Rat
  playing : Bool
  stopRequested : Bool
  buffer : List Char
deriving Repr, DecidableEq

/-- `Player.__init__` field values (src/cutaudio.py lines 119-122) plus the
empty buffer of `play` (line 136). -/
def initPlayer : PlayerState :=
  { position := 0, playing := true, stopRequested := false, buffer := [] }

/-- `Player.stop` line 128: `self._stop = True` (the busy-wait on the
future is a real-time synchronisation, outside this model). -/
def stopRequest (st : PlayerState) : PlayerState := { st with stopRequested := true }

/-- Embeds `re.match(br'^[^(]+\(([0-9.]+).*$', buffer)` (src/cutaudio.py
line 150), returning the captured group.  `[^(]+` cannot cross a `(`, so
it must match a non-empty initial segment ending at the first `(` of the buffer;
the group is then the maximal `[0-9.]` run immediately after that `(` and
must be non-empty (shrinking it cannot help `.*$`, since `.` never matches
an interior newline).  `.*$` succeeds iff the remainder holds no newline
except possibly as the final character of the buffer. -/
def statusMatch (s : List Char) : Option (List Char) :=
  let pre := s.takeWhile (fun c => !(c == '('))
  let r1 := s.dropWhile (fun c => !(c == '('))
  if pre.isEmpty then none
  else
    match r1 with
    | [] => none
    | _ :: r2 =>
      let g := r2.takeWhile isNumChar
      let tl := r2.dropWhile isNumChar
      if g.isEmpty then none
      else if !tl.contains '\n' || (tl.getLast? == some '\n' && !tl.dropLast.contains '\n')
      then some g
      else none

/-- Whether the buffer holds a parenthesized decimal numeric group: a `(`
immediately followed by a `[0-9.]` character. -/
def hasParenNum : List Char → Bool
  | [] => false
  | [_] => false
  | c :: d :: rest => (c == '(' && isNumChar d) || hasParenNum (d :: rest)

/-- Embeds the per-character tail of each `Player.play` loop iteration
(src/cutaudio.py lines 148-155): on a carriage return, try the status
regex on the buffer — on success set `position` to `float` of the group
and clear the buffer, on failure just clear the buffer; any other
character is appended to the buffer.  A group `float` rejects raises
ValueError inside the thread. -/
def processChar (st : PlayerState) (c : Char) : Except String PlayerState :=
  if c = '\r' then
    match statusMatch st.buffer with
    | some g =>
      match pyFloat? g with
      | some v => .ok { st with position := v, buffer := [] }
      | none => .error ("could not convert string to float: \x27" ++ String.mk g ++ "\x27")
    | none => .ok { st with buffer := [] }
  else .ok { st with buffer := st.buffer ++ [c] }

/-- What `p.poll()` reports at the top of one loop iteration. -/
inductive PollResult
  | running
  | exited (code : Int)
deriving Repr, DecidableEq

/-- One loop iteration's inputs from the child process: the poll result
and the character `p.stdout.read(1)` would deliver. -/
structure IterInput where
  poll : PollResult
  char : Char
deriving Repr, DecidableEq

/-- How a (finite initial segment of a) `Player.play` run ends. -/
inductive PlayOutcome
  | running (st : PlayerState)
  | stopped (st : PlayerState)
  | finished (st : PlayerState)
  | crashed (code : Int) (msg : String) (st : PlayerState)
  | failed (msg : String) (st : PlayerState)
deriving Repr, DecidableEq

/-- The player state visible to the foreground recorder at the end of the
modelled run. -/
def PlayOutcome.st : PlayOutcome → PlayerState
  | .running s => s
  | .stopped s => s
  | .finished s => s
  | .crashed _ _ s => s
  | .failed _ s => s

/-- Embeds the `Player.play` loop (src/cutaudio.py lines 132-156) on a
finite script of child-process observations.  Each iteration: poll; if
`_stop` break; if the child exited with 0 break; if it exited non-zero
raise `EnvironmentError('mplayer exited with %s.\n\n%s\n' % (code,
stderr))` — NOTE: the raise skips line 156, so `playing` is left `True`;
otherwise consume one character.  `self.playing = False` runs only after
a `break`.  An exhausted script models a still-running loop. -/
def playLoop (stderrText : String) : PlayerState → List IterInput → PlayOutcome
  | st, [] => .running st
  | st, i :: rest =>
    if st.stopRequested then .stopped { st with playing := false }
    else
      match i.poll with
      | .exited code =>
        if code = 0 then .finished { st with playing := false }
        else .crashed code
          ("mplayer exited with " ++ toString code ++ ".\n\n" ++ stderrText ++ "\n") st
      | .running =>
        match processChar st i.char with
        | .ok st2 => playLoop stderrText st2 rest
        | .error e => .failed e st

/-- Run the play loop on a stream of characters from a child that stays
alive throughout. -/
def runChars (stderrText : String) (st : PlayerState) (cs : List Char) : PlayOutcome :=
  playLoop stderrText st (cs.map fun c => { poll := .running, char := c })

/-- One interaction of the `generate_cutfile` prompt loop: end-of-input or
a typed segment name. -/
inductive UserInput
  | eof
  | line (s : String)
deriving Repr, DecidableEq

/-- The state `generate_cutfile` mutates per iteration: the cutfile's
written record lines, the error messages on stderr, and the shared player
state. -/
structure SessionState where
  cutfile : List String
  stderrOut : List String
  player : PlayerState
deriving Repr, DecidableEq

/-- Embeds one body execution of the `while player.playing` loop of
`generate_cutfile` (src/cutaudio.py lines 96-107): EOF calls
`player.stop()`; a name containing `/` writes the error message to stderr
and records nothing; otherwise the current `player.position` and the name
are appended to the cutfile as one record line and flushed. -/
def recordStep (st : SessionState) (inp : UserInput) : SessionState :=
  match inp with
  | .eof => { st with player := stopRequest st.player }
  | .line name =>
    if '/' ∈ name.data then
      { st with stderrOut := st.stderrOut ++ ["Error: Name may not contain \"/\".\n"] }
    else
      { st with cutfile := st.cutfile ++ [writeRecord st.player.position name] }

/-- Fractional decimal digits of `0 ≤ q < 1`, fuel-bounded. -/
def fracDigits : Nat → Rat → List Char
  | 0, _ => []
  | fuel + 1, q =>
    if q = 0 then []
    else
      let d := (Int.floor (q * 10)).toNat
      digitChar d :: fracDigits fuel (q * 10 - (d : Rat))

/-- Embeds Python `str(x)` for a non-negative float whose value is a short
decimal (the only values `process_cutfile` receives): integer part, a dot,
and the minimal fractional digits, with `str(1.0) = '1.0'`. -/
def ratStr (q : Rat) : String :=
  let ip := (Int.floor q).toNat
  let fr := q - Int.floor q
  if fr = 0 then natStr ip ++ ".0"
  else natStr ip ++ "." ++ String.mk (fracDigits 17 fr)

/-- Embeds `os.path.flatten(a, b)` for a non-empty `a` without a trailing
slash and a relative `b` — the only shapes the source produces. -/
def pathJoin (a b : String) : String := a ++ "/" ++ b

/-- Embeds `intermediate.replace('.', '-' + name + '.')`
(src/cutaudio.py line 174): every dot of the fragment name is replaced,
left to right, without rescanning the replacement. -/
def spliceChars (name : String) (l : List Char) : List Char :=
  l.foldr (fun c acc => if c = '.' then '-' :: (name.data ++ '.' :: acc) else c :: acc) []

def spliceName (frag name : String) : String := String.mk (spliceChars name frag.data)

/-- Lexicographic code-point comparison of strings: `a ≤ b` as Python
compares `str` values. -/
def strLeb : List Char → List Char → Bool
  | [], _ => true
  | _ :: _, [] => false
  | a :: as, b :: bs => if a = b then strLeb as bs else decide (a.toNat < b.toNat)

def insertSorted (x : String) : List String → List String
  | [] => [x]
  | y :: ys => if strLeb x.data y.data then x :: y :: ys else y :: insertSorted x ys

/-- Embeds Python `sorted` on a list of strings (src/cutaudio.py line 172):
stable insertion sort by lexicographic code-point order. -/
def pySorted : List String → List String
  | [] => []
  | x :: xs => insertSorted x (pySorted xs)

/-- The environment one `process_cutfile` call runs against: the temporary
directory's path, what `os.listdir(tmp)` returns after sox ran, and sox's
exit code. -/
structure SoxRun where
  tmp : String
  listing : List String
  returncode : Int
deriving Repr, DecidableEq

/-- The observable effects of one `process_cutfile` call: the ValueError
propagated from forcing the lazy `cuts` generator (if any), each `sox`
command line spawned, each rename performed (source path, destination
path), and the `sys.exit` code (if any). -/
structure ProcResult where
  raised : Option String
  soxCmds : List (List String)
  renames : List (String × String)
  exitCode : Option Nat
deriving Repr, DecidableEq

/-- Embeds `process_cutfile` (src/cutaudio.py lines 158-182).
`cuts = list(cuts)` first forces the lazy parse — a parse error raises
here, before any sox invocation.  Otherwise the single sox command is
`['sox', infile, os.path.flatten(tmp, out_extension), 'trim'] + ['0'] +
[str(end), ':', 'newfile' for each cut]`; on exit code 0 the sorted
listing of the temporary directory is zipped positionally with the cuts
and each fragment is renamed into `outdir` with every `.` of its name
replaced by `-<name>.`; on a non-zero exit the command and output are
reported and the process exits with code 1. -/
def process_cutfile (infile : String) (cutsIter : List (Rat × String) × Option String)
    (outdir out_extension : String) (sox : SoxRun) : ProcResult :=
  match cutsIter.2 with
  | some e => { raised := some e, soxCmds := [], renames := [], exitCode := none }
  | none =>
    let cuts := cutsIter.1
    let xs := "0" :: (cuts.map fun c => [ratStr c.1, ":", "newfile"]).flatten
    let cmd := ["sox", infile, pathJoin sox.tmp out_extension, "trim"] ++ xs
    if sox.returncode = 0 then
      let sorted := pySorted sox.listing
      { raised := none, soxCmds := [cmd],
        renames := (sorted.zip cuts).map fun p =>
          (pathJoin sox.tmp p.1, pathJoin outdir (spliceName p.1 p.2.2)),
        exitCode := none }
    else
      { raised := none, soxCmds := [cmd], renames := [], exitCode := some 1 }

/-- Iterating a Python string yields its characters as one-character
strings — this is what `parse_cutfile(cutfile)` at src/cutaudio.py line 79
iterates over, since `cutfile` (the path) is passed instead of the opened
file object `fp`. -/
def iterStr (s : String) : List String := s.data.map fun c => String.mk [c]


/-! ## Theorems -/

/-- Appending after a two-space literal puts two spaces at the head of the
character data. -/
theorem data_two_space (s : String) : ("  " ++ s).data = ' ' :: ' ' :: s.data := by
  rw [String.data_append]
  rfl

/-- A line whose first character is a space never matches `CUTFILE_REGEX`:
`re.match` anchors at the start of the line and a space is not in `[0-9.]`. -/
theorem matchLine_space_head (s : String) (t : List Char) (h : s.data = ' ' :: t) :
    matchLine s = none := by
  unfold matchLine
  rw [h]
  rfl

/-- Every line the recorder writes fails `CUTFILE_REGEX`, because of its
two leading spaces. -/
theorem writeRecord_no_match (pos : Rat) (name : String) :
    matchLine (writeRecord pos name) = none := by
  exact matchLine_space_head _ (' ' :: (fmtF pos ++ " " ++ name ++ "\n").data)
    (data_two_space (fmtF pos ++ " " ++ name ++ "\n"))

/-- Writer output is rejected wholesale by the parser: for every position
and name, parsing the single written line aborts with `Invalid line`. -/
theorem write_parse_roundtrip_fails_all (pos : Rat) (name : String) :
    parse_cutfile [writeRecord pos name] =
      ([], some ("Invalid line: " ++ writeRecord pos name)) := by
  simp [parse_cutfile, writeRecord_no_match]

unseal Rat.add Rat.mul Rat.inv Rat.sub in
/-- C1 (code evaluated at the failing input): the writer's line for the
record `(1.0, "intro")` is `"  1.000000 intro\n"`, and parsing it yields
no record at all — `parse_cutfile` aborts with `ValueError('Invalid
line: ...')` on it, so the `write → parse` round-trip of the claim fails
on every writer-produced line (see `write_parse_roundtrip_fails_all`). -/
theorem write_parse_roundtrip_fails_at_record :
    writeRecord 1 "intro" = "  1.000000 intro\n" ∧
      parse_cutfile [writeRecord 1 "intro"] =
        ([], some "Invalid line:   1.000000 intro\n") := by
  refine ⟨by decide, by decide⟩

/-- One fully valid line prepends its record to the parse of the rest. -/
theorem parse_cutfile_cons_ok (l : String) (ls : List String) (hl : lineOk l = true) :
    parse_cutfile (l :: ls) =
      (recOf l :: (parse_cutfile ls).1, (parse_cutfile ls).2) := by
  unfold lineOk at hl
  cases hml : matchLine l with
  | none => simp [hml] at hl
  | some p =>
    obtain ⟨g1, g2⟩ := p
    simp only [hml] at hl
    cases hpf : pyFloat? g1 with
    | none => simp [hpf] at hl
    | some v => simp [parse_cutfile, hml, hpf, recOf]

/-- C2 (amended): if every line before the offending one matches the
record pattern and has a `float`-convertible time group, then parsing
yields exactly those lines' records, in order, and aborts at the first
non-matching line with `ValueError('Invalid line: %s' % line)`, yielding
nothing after it. -/
theorem parse_stops_at_first_bad_line (pre : List String) (bad : String) (rest : List String)
    (hpre : pre.all lineOk = true) (hbad : matchLine bad = none) (hne : bad ≠ "") :
    parse_cutfile (pre ++ bad :: rest) =
      (pre.map recOf, some ("Invalid line: " ++ bad)) := by
  induction pre with
  | nil =>
    simp only [List.nil_append, List.map_nil]
    simp [parse_cutfile, hbad]
  | cons l ls ih =>
    simp only [List.all_cons, Bool.and_eq_true] at hpre
    have h := parse_cutfile_cons_ok l (ls ++ bad :: rest) hpre.1
    simp only [List.cons_append]
    rw [h, ih hpre.2]
    simp

unseal Rat.add Rat.mul Rat.inv Rat.sub in
/-- Witness for `parse_stops_at_first_bad_line`: the spec's own example
line `"  abc name\n"` aborts parsing after the one valid line before it. -/
theorem parse_stops_at_first_bad_line_witness :
    parse_cutfile ["1.0 a\n", "  abc name\n", "2.0 b\n"] =
      ([((1 : Rat), "a\n")], some "Invalid line:   abc name\n") := by
  have h := parse_stops_at_first_bad_line ["1.0 a\n"] "  abc name\n" ["2.0 b\n"]
    (by decide) (by decide) (by decide)
  exact h.trans (by decide)

unseal Rat.add Rat.mul Rat.inv Rat.sub in
/-- C2 (counterexample): the line `"1.2.3 a\n"` matches the record pattern
(`[0-9.]+` admits several dots) but `float('1.2.3')` raises, so parsing
`["1.2.3 a\n", "  abc name\n"]` aborts with the float conversion error:
the non-matching, non-empty line `"  abc name\n"` does not abort parsing
with a format error identifying it, and the matching line before it is not
yielded — refuting the claim as universally stated. -/
theorem parse_matching_line_float_error :
    matchLine "1.2.3 a\n" ≠ none ∧ matchLine "  abc name\n" = none ∧
      ("  abc name\n" : String) ≠ "" ∧
      parse_cutfile ["1.2.3 a\n", "  abc name\n"] =
        ([], some "could not convert string to float: \x271.2.3\x27") ∧
      ¬ ((parse_cutfile ["1.2.3 a\n", "  abc name\n"]).2 =
        some ("Invalid line: " ++ "  abc name\n")) := by
  refine ⟨by decide, by decide, by decide, by decide, by decide⟩

/-- C4: a typed segment name containing `/` (any name of the shape
`a ++ "/" ++ b`) only appends the error message to stderr: the cutfile
lines and the player state are left exactly as they were, so the record
count is unchanged and the loop simply prompts again. -/
theorem slash_name_not_recorded (st : SessionState) (a b : String) :
    recordStep st (.line (a ++ "/" ++ b)) =
      { st with stderrOut := st.stderrOut ++ ["Error: Name may not contain \"/\".\n"] } := by
  have h0 : '/' ∈ ("/" : String).data := by decide
  have h : '/' ∈ (a ++ "/" ++ b).data := by
    rw [String.data_append, String.data_append]
    exact List.mem_append_left _ (List.mem_append_right _ h0)
  simp [recordStep, h]

/-- No one-character line can match `CUTFILE_REGEX`: a match needs a time
group, a space and a name, hence at least three characters. -/
theorem matchLine_single (c : Char) : matchLine (String.mk [c]) = none := by
  cases h : isNumChar c <;>
    simp [matchLine, List.takeWhile, List.dropWhile, h]

/-- C10: `cutaudio` passes the cutfile path string, not the opened file
object, to `parse_cutfile` (src/cutaudio.py line 79), so the parser
iterates the path's characters as one-character lines; for every non-empty
path, forcing the cuts in `process_cutfile` raises
`ValueError('Invalid line: <first character>')` before any sox command is
built or spawned. -/
theorem path_chars_raise_invalid_line (infile outdir ext : String) (sox : SoxRun)
    (c : Char) (cs : List Char) :
    process_cutfile infile (parse_cutfile (iterStr (String.mk (c :: cs)))) outdir ext sox =
      { raised := some ("Invalid line: " ++ String.mk [c]), soxCmds := [],
        renames := [], exitCode := none } := by
  have h1 : iterStr (String.mk (c :: cs)) =
      String.mk [c] :: cs.map (fun d => String.mk [d]) := rfl
  rw [h1]
  simp [parse_cutfile, matchLine_single, process_cutfile]

/-- If the buffer holds no `(` immediately followed by a `[0-9.]`
character, then whatever follows the first `(` (if any) starts with no
numeric character, so the status regex group is empty. -/
theorem dropWhile_paren_group_empty (s : List Char) (hs : hasParenNum s = false)
    (b : Char) (r2 : List Char)
    (hd : s.dropWhile (fun c => !(c == '(')) = b :: r2) :
    r2.takeWhile isNumChar = [] := by
  induction s generalizing b r2 with
  | nil => simp at hd
  | cons a t ih =>
    rw [List.dropWhile_cons] at hd
    by_cases ha : a = '('
    · subst ha
      rw [if_neg (by decide)] at hd
      injection hd with hb ht
      subst ht
      cases t with
      | nil => rfl
      | cons d t2 =>
        have hnd : isNumChar d = false := by
          simp [hasParenNum] at hs
          exact hs.1
        simp [List.takeWhile_cons, hnd]
    · rw [if_pos (by simp [ha])] at hd
      have hs' : hasParenNum t = false := by
        cases t with
        | nil => rfl
        | cons d t2 =>
          simp [hasParenNum] at hs
          simp [hasParenNum, hs.2]
      exact ih hs' b r2 hd

/-- A buffer with no parenthesized numeric group never matches the status
regex. -/
theorem statusMatch_none_of_no_paren_group (s : List Char) (hs : hasParenNum s = false) :
    statusMatch s = none := by
  cases hd : s.dropWhile (fun c => !(c == '(')) with
  | nil => simp [statusMatch, hd]
  | cons b r2 =>
    have hg := dropWhile_paren_group_empty s hs b r2 hd
    simp [statusMatch, hd, hg]

/-- C6: on a carriage return, a status buffer with no parenthesized
decimal numeric group is discarded silently: the buffer is reset and
every other field — `position` in particular — is unchanged; no error is
raised (the step returns normally). -/
theorem cr_without_paren_group_keeps_position (st : PlayerState)
    (h : hasParenNum st.buffer = false) :
    processChar st '\r' = .ok { st with buffer := [] } := by
  unfold processChar
  rw [if_pos rfl, statusMatch_none_of_no_paren_group st.buffer h]

/-- Witness for `cr_without_paren_group_keeps_position`: the spec's
parenthesis-free example buffer. -/
theorem cr_without_paren_group_keeps_position_witness :
    processChar { position := 0, playing := true, stopRequested := false, buffer := "A: 12.340 ...".data } '\r' =
      .ok { position := 0, playing := true, stopRequested := false, buffer := [] } :=
  cr_without_paren_group_keeps_position
    { position := 0, playing := true, stopRequested := false,
      buffer := "A: 12.340 ...".data } (by decide)

unseal Rat.add Rat.mul Rat.inv Rat.sub in
/-- C5 (counterexample): the status buffer `"A: 12.340 ..."` holds no
parenthesis, so the status regex `^[^(]+\(([0-9.]+).*$` does not match it:
after the tracker consumes that buffer and a carriage return, `position`
is still `0.0`, not `12.34`. -/
theorem bare_status_buffer_keeps_position_zero :
    ((runChars "" initPlayer ("A: 12.340 ...".data ++ ['\r'])).st).position = 0 ∧
      ((runChars "" initPlayer ("A: 12.340 ...".data ++ ['\r'])).st).position ≠
        (1234 : Rat) / 100 := by
  refine ⟨by decide, by decide⟩

unseal Rat.add Rat.mul Rat.inv Rat.sub in
/-- C5 (amended): a status buffer carrying the position in a parenthesized
decimal group — e.g. `"A:  12.3 (12.340) of 300.0"` — followed by a
carriage return sets `position` to `12.34`. -/
theorem paren_status_buffer_sets_position :
    ((runChars "" initPlayer ("A:  12.3 (12.340) of 300.0".data ++ ['\r'])).st).position =
      (1234 : Rat) / 100 := by
  decide

/-- C7: when the child exits with a non-zero code, the loop raises
`EnvironmentError('mplayer exited with %s.\n\n%s\n' % ...)` carrying the
code and the error-stream text — but the raise skips `self.playing =
False` (src/cutaudio.py line 156), and the exception is stored in the
executor's future, which `generate_cutfile` never inspects: the state the
recording session can see still has `playing = true`, so the crash is
swallowed rather than surfaced. -/
theorem nonzero_exit_crash_not_surfaced (stderrText : String) (pos : Rat)
    (buf : List Char) (k : Int) (hk : k ≠ 0) (c : Char) (rest : List IterInput) :
    playLoop stderrText { position := pos, playing := true, stopRequested := false, buffer := buf }
        ({ poll := .exited k, char := c } :: rest) =
      .crashed k ("mplayer exited with " ++ toString k ++ ".\n\n" ++ stderrText ++ "\n")
        { position := pos, playing := true, stopRequested := false, buffer := buf } ∧
      ((playLoop stderrText
          { position := pos, playing := true, stopRequested := false, buffer := buf }
          ({ poll := .exited k, char := c } :: rest)).st).playing = true := by
  have h : playLoop stderrText
      { position := pos, playing := true, stopRequested := false, buffer := buf }
      ({ poll := .exited k, char := c } :: rest) =
      .crashed k ("mplayer exited with " ++ toString k ++ ".\n\n" ++ stderrText ++ "\n")
        { position := pos, playing := true, stopRequested := false, buffer := buf } := by
    simp [playLoop, hk]
  refine ⟨h, ?_⟩
  rw [h]
  rfl


/-- Witness for `nonzero_exit_crash_not_surfaced`: exit code 1. -/
theorem nonzero_exit_crash_not_surfaced_witness :
    playLoop "boom" { position := 0, playing := true, stopRequested := false, buffer := [] }
        [{ poll := .exited 1, char := 'x' }] =
      .crashed 1 "mplayer exited with 1.\n\nboom\n"
        { position := 0, playing := true, stopRequested := false, buffer := [] } ∧
      ((playLoop "boom" { position := 0, playing := true, stopRequested := false, buffer := [] }
          [{ poll := .exited 1, char := 'x' }]).st).playing = true := by
  have h := nonzero_exit_crash_not_surfaced "boom" 0 [] 1 (by decide) 'x' []
  exact ⟨h.1.trans (by decide), by decide⟩

unseal Rat.add Rat.mul Rat.inv Rat.sub in
/-- C9 (counterexample): a status stream reporting `(5.0)` and then
`(3.0)` drives `position` from `5` down to `3` while `playing` remains
true throughout — `position` is not monotonically non-decreasing while
playing. -/
theorem position_decreases_counterexample :
    ((runChars "" initPlayer ("x(5.0)".data ++ ['\r'])).st).position = 5 ∧
      ((runChars "" initPlayer ("x(5.0)".data ++ ['\r'])).st).playing = true ∧
      ((runChars "" initPlayer
          ("x(5.0)".data ++ ['\r'] ++ "x(3.0)".data ++ ['\r'])).st).position = 3 ∧
      ((runChars "" initPlayer
          ("x(5.0)".data ++ ['\r'] ++ "x(3.0)".data ++ ['\r'])).st).playing = true ∧
      ¬ ((5 : Rat) ≤ 3) := by
  refine ⟨by decide, by decide, by decide, by decide, by decide⟩

/-- C9 (amended): `position` changes only at a carriage return, and then
it is set to the parsed value of the buffer's status group, whatever its
relation to the previous value (no monotonicity is enforced; a rejected
`float` conversion aborts the loop instead); and once the loop has
observed a stop request it exits at once — for every further script the
final state's `position` is exactly the `position` at the stop, so no
further updates occur. -/
theorem position_update_rule_and_freeze :
    (∀ (st : PlayerState) (c : Char),
        ((processChar st c).map PlayerState.position = .ok st.position) ∨
        (∃ g v, c = '\r' ∧ statusMatch st.buffer = some g ∧ pyFloat? g = some v ∧
          processChar st c = .ok { st with position := v, buffer := [] }) ∨
        (∃ e, processChar st c = .error e)) ∧
    (∀ (stderrText : String) (pos : Rat) (play : Bool) (buf : List Char)
        (script : List IterInput),
      ((playLoop stderrText
          { position := pos, playing := play, stopRequested := true, buffer := buf }
          script).st).position = pos) := by
  constructor
  · intro st c
    by_cases hc : c = '\r'
    · subst hc
      cases hsm : statusMatch st.buffer with
      | none => left; simp [processChar, hsm, Except.map]
      | some g =>
        cases hpf : pyFloat? g with
        | none =>
          right; right
          refine ⟨"could not convert string to float: \x27" ++ String.mk g ++ "\x27", ?_⟩
          simp [processChar, hsm, hpf]
        | some v =>
          right; left
          refine ⟨g, v, rfl, rfl, hpf, ?_⟩
          simp [processChar, hsm, hpf]
    · left; simp [processChar, hc, Except.map]
  · intro stderrText pos play buf script
    cases script with
    | nil => rfl
    | cons i rest => simp [playLoop, PlayOutcome.st]

/-- Indexing a positional zip-map: element `i` of the mapped zip is `f` of
the two lists' elements at `i`. -/
theorem get_zip_map {α β γ : Type} (f : α × β → γ) :
    ∀ (xs : List α) (ys : List β) (i : Nat) (h : i < ((xs.zip ys).map f).length)
      (h1 : i < xs.length) (h2 : i < ys.length),
      ((xs.zip ys).map f).get ⟨i, h⟩ = f (xs.get ⟨i, h1⟩, ys.get ⟨i, h2⟩) := by
  intro xs
  induction xs with
  | nil => intro ys i h h1 h2; simp at h1
  | cons x xs ih =>
    intro ys i h h1 h2
    cases ys with
    | nil => simp at h2
    | cons y ys =>
      cases i with
      | zero => rfl
      | succ j =>
        have := ih ys j (by simpa using h) (by simpa using h1) (by simpa using h2)
        simp only [List.zip_cons_cons, List.map_cons, List.get_cons_succ] at this ⊢
        exact this

/-- The fold of `replace('.', ...)` leaves a dot-free character list in
place, in front of the accumulator. -/
theorem spliceChars_no_dot (nm : String) (l acc : List Char) (h : '.' ∉ l) :
    l.foldr (fun c acc => if c = '.' then '-' :: (nm.data ++ '.' :: acc) else c :: acc) acc =
      l ++ acc := by
  induction l with
  | nil => rfl
  | cons a t ih =>
    have ha : a ≠ '.' := fun e => h (e ▸ List.mem_cons_self a t)
    have ht : '.' ∉ t := fun e => h (List.mem_cons_of_mem a e)
    simp [List.foldr_cons, ha, ih ht]

/-- `intermediate.replace('.', '-' + name + '.')` on a fragment name with
a single dot splices the name immediately before the extension. -/
theorem spliceName_single_dot (stem ext2 nm : String)
    (h1 : '.' ∉ stem.data) (h2 : '.' ∉ ext2.data) :
    spliceName (stem ++ "." ++ ext2) nm = stem ++ "-" ++ nm ++ "." ++ ext2 := by
  apply String.ext
  have hdot : ("." : String).data = ['.'] := rfl
  have hdash : ("-" : String).data = ['-'] := rfl
  have e1 : (stem ++ "." ++ ext2).data = stem.data ++ '.' :: ext2.data := by
    rw [String.data_append, String.data_append, hdot]
    simp
  have hstep : List.foldr
      (fun c acc => if c = '.' then '-' :: (nm.data ++ '.' :: acc) else c :: acc) []
      ('.' :: ext2.data) = '-' :: (nm.data ++ '.' :: ext2.data) := by
    rw [List.foldr_cons, spliceChars_no_dot nm ext2.data [] h2]
    simp
  have key : spliceChars nm (stem.data ++ '.' :: ext2.data) =
      stem.data ++ '-' :: (nm.data ++ '.' :: ext2.data) := by
    unfold spliceChars
    rw [List.foldr_append, hstep, spliceChars_no_dot nm stem.data _ h1]
  show spliceChars nm (stem ++ "." ++ ext2).data = (stem ++ "-" ++ nm ++ "." ++ ext2).data
  rw [e1, key, String.data_append, String.data_append, String.data_append,
    String.data_append, hdot, hdash]
  simp

/-- C3: with the parsed cuts in hand and a successful sox run, exactly one
sox command is spawned, its trim boundary list is
`0 <end1> : newfile <end2> : newfile ...` in record order, and the output
fragments, in sorted order, are renamed positionally into the output
directory: fragment `i` keeps its own name with cut `i`'s segment name
spliced in at each dot — for a fragment `stem.ext` with a single dot this
is immediately before the extension (third conjunct). -/
theorem process_cutfile_single_sox_and_positional_renames
    (infile outdir ext tmp : String) (cuts : List (Rat × String)) (listing : List String) :
    (process_cutfile infile (cuts, none) outdir ext
        { tmp := tmp, listing := listing, returncode := 0 }).soxCmds =
      [["sox", infile, pathJoin tmp ext, "trim", "0"] ++
        (cuts.map fun c => [ratStr c.1, ":", "newfile"]).flatten] ∧
    (∀ (i : Nat)
        (h : i < (process_cutfile infile (cuts, none) outdir ext
          { tmp := tmp, listing := listing, returncode := 0 }).renames.length)
        (h1 : i < (pySorted listing).length) (h2 : i < cuts.length),
      (process_cutfile infile (cuts, none) outdir ext
          { tmp := tmp, listing := listing, returncode := 0 }).renames.get ⟨i, h⟩ =
        (pathJoin tmp ((pySorted listing).get ⟨i, h1⟩),
          pathJoin outdir (spliceName ((pySorted listing).get ⟨i, h1⟩)
            ((cuts.get ⟨i, h2⟩).2)))) ∧
    (∀ stem ext2 nm : String, '.' ∉ stem.data → '.' ∉ ext2.data →
      spliceName (stem ++ "." ++ ext2) nm = stem ++ "-" ++ nm ++ "." ++ ext2) := by
  refine ⟨rfl, ?_, fun stem ext2 nm h1 h2 => spliceName_single_dot stem ext2 nm h1 h2⟩
  intro i h h1 h2
  exact @get_zip_map String (Rat × String) (String × String)
    (fun p => (pathJoin tmp p.1, pathJoin outdir (spliceName p.1 p.2.2)))
    (pySorted listing) cuts i h h1 h2

unseal Rat.add Rat.mul Rat.inv Rat.sub in
/-- Witness for `process_cutfile_single_sox_and_positional_renames`: the
spec's end-to-end example — records `(1.0, "intro")`, `(2.5, "verse")`,
with the two fragments listed out of order to exercise the sort. -/
theorem process_cutfile_single_sox_and_positional_renames_witness :
    (process_cutfile "in.mp3" ([((1 : Rat), "intro"), ((5 : Rat) / 2, "verse")], none)
        "out" ".mp3" { tmp := "/t", listing := ["002.mp3", "001.mp3"], returncode := 0 }).soxCmds =
      [["sox", "in.mp3", "/t/.mp3", "trim", "0", "1.0", ":", "newfile", "2.5", ":", "newfile"]] ∧
    (process_cutfile "in.mp3" ([((1 : Rat), "intro"), ((5 : Rat) / 2, "verse")], none)
        "out" ".mp3" { tmp := "/t", listing := ["002.mp3", "001.mp3"], returncode := 0 }).renames.get
        ⟨0, by decide⟩ = ("/t/001.mp3", "out/001-intro.mp3") ∧
    (process_cutfile "in.mp3" ([((1 : Rat), "intro"), ((5 : Rat) / 2, "verse")], none)
        "out" ".mp3" { tmp := "/t", listing := ["002.mp3", "001.mp3"], returncode := 0 }).renames.get
        ⟨1, by decide⟩ = ("/t/002.mp3", "out/002-verse.mp3") := by
  have h := process_cutfile_single_sox_and_positional_renames "in.mp3" "out" ".mp3" "/t"
    [((1 : Rat), "intro"), ((5 : Rat) / 2, "verse")] ["002.mp3", "001.mp3"]
  refine ⟨h.1.trans (by decide), ?_, ?_⟩
  · exact (h.2.1 0 (by decide) (by decide) (by decide)).trans (by decide)
  · exact (h.2.1 1 (by decide) (by decide) (by decide)).trans (by decide)

end Cutaudio
